import Mathlib

/-
  Verification development for the ecr-terraform-mirror repository.

  The repository contains two Go AWS Lambda entry points:
  * the chained mirrorer (src/unnamed/part_000): `handler`, `parseJobEvent`,
    `loadRepoList`, `normalizeRepoList`, `loadReposFromSSM`,
    `mirrorSingleRepo`, `invokeSelfAsync`;
  * the full-sync mirrorer (src/cmd/fullsync/main.go): `ensureECRRepo`,
    `ecrTagDigest` and the per-tag skip decision inside its `handler`.

  The embedding below models the external collaborators (AWS ECR, the source
  registry, SSM, the Lambda invoke API, the JSON decoder) as an explicit
  `World` of call oracles plus an explicit destination-registry state `Ecr`
  that is threaded through every operation.  Network calls that the Go code
  performs are represented by reading the corresponding oracle; every piece
  of string manipulation, control flow and error wrapping done by the Go
  code itself is reproduced directly.
-/

set_option autoImplicit false

namespace EcrMirror

/-- Decidable equality for call results, so concrete runs of the embedding
can be checked by `decide`. -/
instance {ε α : Type} [DecidableEq ε] [DecidableEq α] : DecidableEq (Except ε α) :=
  fun a b =>
    match a, b with
    | .error x, .error y =>
      if h : x = y then .isTrue (congrArg Except.error h)
      else .isFalse (fun he => h (Except.error.inj he))
    | .ok x, .ok y =>
      if h : x = y then .isTrue (congrArg Except.ok h)
      else .isFalse (fun he => h (Except.ok.inj he))
    | .error _, .ok _ => .isFalse (fun he => Except.noConfusion he)
    | .ok _, .error _ => .isFalse (fun he => Except.noConfusion he)

/-! ### Go standard-library string helpers used by the source

These are written structurally over `List Char` so that concrete runs of
the embedding reduce inside the kernel. -/

/-- The ASCII white-space characters recognized by Go `unicode.IsSpace`
(the configuration strings the source trims are ASCII). -/
def goIsSpace (c : Char) : Bool :=
  c = ' ' || c = '\t' || c = '\n' || c = '\x0b' || c = '\x0c' || c = '\r'

/-- Go `strings.TrimSpace`. -/
def goTrimSpace (s : String) : String :=
  String.mk (((s.data.dropWhile goIsSpace).reverse.dropWhile goIsSpace).reverse)

/-- Go `strings.TrimPrefix p` : drop `p` from the front of `s` when `s`
starts with `p`, otherwise return `s` unchanged. -/
def goTrimPfx (s p : String) : String :=
  if p.data.isPrefixOf s.data then String.mk (s.data.drop p.data.length) else s

/-- Go `strings.Trim(s, " ")` for the single-character cutset used by the
source: drop leading and trailing occurrences of `c`. -/
def goTrimChar (s : String) (c : Char) : String :=
  String.mk (((s.data.dropWhile (fun x => x = c)).reverse.dropWhile (fun x => x = c)).reverse)

/-- Go `strings.EqualFold` restricted to ASCII, which is how the source uses
it (comparing configuration flags against the literal string true). -/
def goEqualFold (a b : String) : Bool :=
  a.data.map Char.toLower == b.data.map Char.toLower

/-- Whether `sub` occurs as a contiguous run of `l`: Go `strings.Contains`
on character lists. -/
def containsSub (sub : List Char) : List Char → Bool
  | [] => sub.isPrefixOf []
  | x :: xs => sub.isPrefixOf (x :: xs) || containsSub sub xs

/-- Go `strings.Contains`. -/
def goContains (s sub : String) : Bool := containsSub sub.data s.data

/-- Split at the first occurrence of `sep` (a non-empty pattern), returning
the characters before it and the characters after it. -/
def splitFirstSub (sep : List Char) : List Char → Option (List Char × List Char)
  | [] => none
  | x :: xs =>
    if sep.isPrefixOf (x :: xs) then some ([], (x :: xs).drop sep.length)
    else (splitFirstSub sep xs).map (fun p => (x :: p.1, p.2))

/-- Go `strings.SplitN(s, sep, 2)` for a non-empty separator: split at the
first occurrence only. -/
def goSplitN2 (s sep : String) : List String :=
  match splitFirstSub sep.data s.data with
  | none => [s]
  | some (a, b) => [String.mk a, String.mk b]

/-- Split a character list on every occurrence of the character `c`. -/
def splitChar (c : Char) : List Char → List (List Char)
  | [] => [[]]
  | x :: xs =>
    if x = c then [] :: splitChar c xs
    else
      match splitChar c xs with
      | [] => [[x]]
      | y :: ys => (x :: y) :: ys

/-- Go `strings.Split` for the single-character separators the source uses. -/
def goSplit (s : String) (c : Char) : List String :=
  (splitChar c s.data).map String.mk

/-- Decimal digits to a number, most significant first. -/
def digitsToNat : List Char → Nat → Nat
  | [], acc => acc
  | c :: cs, acc => digitsToNat cs (acc * 10 + (c.toNat - 48))

/-- Go `strconv.Atoi`: optional sign followed by decimal digits. -/
def goAtoi (s : String) : Option Int :=
  match s.data with
  | [] => none
  | '-' :: ds =>
    if ds ≠ [] ∧ ds.all Char.isDigit then some (-(digitsToNat ds 0 : Int)) else none
  | '+' :: ds =>
    if ds ≠ [] ∧ ds.all Char.isDigit then some ((digitsToNat ds 0 : Int)) else none
  | ds =>
    if ds.all Char.isDigit then some ((digitsToNat ds 0 : Int)) else none

/-- Go `path.Join` as used by the source: both arguments are non-empty,
already-clean path segments (no dot segments, no doubled slashes), for which
`path.Join` reduces to joining with a slash. -/
def pathJoin (a b : String) : String := a ++ "/" ++ b

/-! ### Data model -/

/-- Structure `JobEvent` from the chained mirrorer: the Job Descriptor payload.
Go field `Index` is an `int`, `Repo` a string. -/
structure JobEvent where
  index : Int
  repo : String
deriving DecidableEq, Repr

/-- The source-side image descriptor returned by `remote.Get`: its digest
string and whether its media type is an image index. -/
structure Desc where
  digest : String
  isIndex : Bool
deriving DecidableEq, Repr

/-- Destination-registry (ECR) state: the set of existing repositories and
the recorded tag digests.  `tagDigests` is an association list keyed by
(repository name, tag); the most recent entry shadows older ones. -/
structure Ecr where
  repos : List String
  tagDigests : List ((String × String) × String)
deriving DecidableEq, Repr

/-- The digest ECR currently records for `(r, t)`, if any. -/
def lookupTag (e : Ecr) (r t : String) : Option String :=
  (e.tagDigests.find? (fun p => decide (p.1 = (r, t)))).map (fun p => p.2)

/-- Record digest `d` for `(r, t)`: a successful manifest write. -/
def setTag (e : Ecr) (r t d : String) : Ecr :=
  { repos := e.repos, tagDigests := ((r, t), d) :: e.tagDigests }

/-- The trigger payload as seen through `json.Unmarshal`: absent/zero-length,
non-empty but not valid JSON for a `JobEvent`, or valid JSON decoding to a
`JobEvent`. -/
inductive RawPayload where
  | empty
  | invalid
  | valid (evt : JobEvent)
deriving DecidableEq, Repr

/-- Observable per-call effects of one repository mirror pass. -/
inductive Action where
  | createRepoCall (r : String) (scanOnPush : Bool)
  | skip (tag : String)
  | transfer (tag : String) (isIndex : Bool)
deriving DecidableEq, Repr

/-- The mirror decision of the Digest Skip Engine for one tag. -/
inductive Decision where
  | skip
  | transfer
deriving DecidableEq, Repr

/-- Outcome of the `BatchGetImage` digest query for one destination tag:
the call failed, the call succeeded but returned no digest for the tag, or
it returned the recorded digest. -/
inductive LookupOutcome where
  | lookupFailed
  | notFound
  | found (d : String)
deriving DecidableEq, Repr

/-! ### The world of external collaborators

Each field models the outcome of one kind of external call the Go code makes.
Oracles are keyed by the same strings the Go code passes to the call. -/

structure World where
  /-- Outcome of `config.LoadDefaultConfig`: `none` = success. -/
  loadCfgErr : Option String
  /-- Outcome of `ecr.GetAuthorizationToken` followed by the base64 decode of the first
  authorization token: an error (from the call, empty authorization data or
  the decode), or the decoded token together with the proxy endpoint. -/
  getAuth : Except String (String × String)
  /-- Oracle for `ecr.DescribeRepositories` failing with something other than
  `RepositoryNotFoundException` (keyed by repository name). -/
  describeErr : String → Option String
  /-- Oracle for `ecr.CreateRepository` failure (keyed by repository name). -/
  createErr : String → Option String
  /-- Oracle for `name.ParseReference` success (keyed by the reference string). -/
  parseRefOk : String → Bool
  /-- Oracle for `name.NewRepository` success (keyed by the repository string). -/
  newRepoOk : String → Bool
  /-- Outcome of `remote.List` on the source registry (keyed by source repository). -/
  listTagsRes : String → Except String (List String)
  /-- Outcome of `remote.Get` on the source registry (keyed by the full source
  reference string, i.e. repository ++ colon ++ tag). -/
  getManifest : String → Except String Desc
  /-- Oracle for `desc.Image()` / `desc.ImageIndex()` failure (keyed by source ref). -/
  readErr : String → Option String
  /-- Oracle for `ecr.BatchGetImage` call failure (keyed by repository name and tag). -/
  lookupFails : String → String → Bool
  /-- Oracle for `remote.Write` / `remote.WriteIndex` failure (keyed by the full
  destination reference string). -/
  writeErr : String → Option String
  /-- Oracle for `lambda.Invoke` failure for a continuation payload. -/
  invokeRes : JobEvent → Option String
  /-- Outcome of `ssm.GetParameter`: error, or the (optional) parameter value;
  `none` models a nil parameter or nil value. -/
  ssmParam : String → Except String (Option String)
  /-- Outcome of `json.Unmarshal` of a string into a Go `[]string`:
  `none` = not valid JSON for a string array. -/
  jsonStrings : String → Option (List String)

/-- The environment-variable configuration surface read by the source. -/
structure Env where
  mirrorDryRun : String
  cgrUsername : String
  cgrPassword : String
  srcRegistryVar : String
  dstPrefixVar : String
  copyAllTags : String
  startIndexVar : String
  repoListJson : String
  repoListCsv : String
  repoListSsmParam : String
  groupName : String
  lambdaFunctionName : String
deriving DecidableEq, Repr

/-! ### Chained mirrorer: repository-list discovery
(`normalizeRepoList`, `loadReposFromSSM`, `loadRepoList`) -/

/-- Function `normalizeRepoList`: trim each entry, drop entries that are empty after
trimming.  (The Go loop appends in order; it performs no deduplication.) -/
def normalizeRepoList (l : List String) : List String :=
  l.filterMap (fun s => if goTrimSpace s = "" then none else some (goTrimSpace s))

/-- Function `loadReposFromSSM`: load AWS config, fetch the parameter, reject a nil
parameter/value, then try JSON-array decoding and fall back to CSV. -/
def loadReposFromSSM (w : World) (p : String) : Except String (List String) :=
  match w.loadCfgErr with
  | some m => .error m
  | none =>
    match w.ssmParam p with
    | .error m => .error m
    | .ok none => .error "empty SSM parameter"
    | .ok (some v) =>
      match w.jsonStrings (goTrimSpace v) with
      | some repos => .ok (normalizeRepoList repos)
      | none => .ok (normalizeRepoList (goSplit (goTrimSpace v) ','))

/-- The static fallback repository list (lines 148-162): three
repositories under SRC_REGISTRY (default cgr.dev) and GROUP_NAME (default
chainguard). -/
def fallbackRepos (env : Env) : List String :=
  [(if env.srcRegistryVar = "" then "cgr.dev" else env.srcRegistryVar) ++ "/" ++
     (if env.groupName = "" then "chainguard" else env.groupName) ++ "/" ++ "foo",
   (if env.srcRegistryVar = "" then "cgr.dev" else env.srcRegistryVar) ++ "/" ++
     (if env.groupName = "" then "chainguard" else env.groupName) ++ "/" ++ "bar",
   (if env.srcRegistryVar = "" then "cgr.dev" else env.srcRegistryVar) ++ "/" ++
     (if env.groupName = "" then "chainguard" else env.groupName) ++ "/" ++ "baz"]

def loadRepoList (env : Env) (w : World) : Except String (List String) :=
  match (if goTrimSpace env.repoListJson = "" then none
         else w.jsonStrings (goTrimSpace env.repoListJson)) with
  | some repos => .ok (normalizeRepoList repos)
  | none =>
    if goTrimSpace env.repoListCsv ≠ "" then
      .ok (normalizeRepoList (goSplit (goTrimSpace env.repoListCsv) ','))
    else
      if goTrimSpace env.repoListSsmParam ≠ "" then
        match loadReposFromSSM w (goTrimSpace env.repoListSsmParam) with
        | .error m =>
          .error ("load from SSM " ++ goTrimSpace env.repoListSsmParam ++ ": " ++ m)
        | .ok repos => .ok repos
      else .ok (fallbackRepos env)

-- `loadRepoList` precedence: REPO_LIST_JSON (skipped with a warning when
-- invalid) > REPO_LIST_CSV > REPO_LIST_SSM_PARAM > the static fallback.

/-! ### Chained mirrorer: event parsing -/

/-- The index chosen for an absent payload: START_INDEX when it is set and
parses as an integer, else 0.  (A set but unparsable START_INDEX is ignored.) -/
def startIndexVal (s : String) : Int :=
  let t := goTrimSpace s
  if t ≠ "" then
    match goAtoi t with
    | some n => n
    | none => 0
  else 0

/-- Function `parseJobEvent`: a zero-length payload yields index START_INDEX (or 0);
otherwise the payload is unmarshalled and an unmarshalling failure is an
error (which `handler` then replaces by index 0). -/
def parseJobEvent (startIdx : String) : RawPayload → Except String JobEvent
  | .empty => .ok { index := startIndexVal startIdx, repo := "" }
  | .invalid => .error "unmarshal failed"
  | .valid evt => .ok evt

/-! ### Chained mirrorer: one repository mirror pass (`mirrorSingleRepo`) -/

/-- Lines 226-244 of the chained mirrorer: obtain the ECR authorization
token (modelled as one oracle covering the call, the empty-data check and
the base64 decode), split the decoded token at the first colon, and strip
the scheme off the proxy endpoint.  Returns (password, registry host). -/
def ecrAuth (w : World) : Except String (String × String) :=
  match w.getAuth with
  | .error e => .error ("ecr:GetAuthorizationToken: " ++ e)
  | .ok (dec, endp) =>
    match goSplitN2 dec ":" with
    | [_, pass] => .ok (pass, goTrimPfx endp "https://")
    | _ => .error "unexpected ecr token format"

/-- Lines 247-259: destination repository name = source repository with the
source-registry host stripped, optionally under DST_PREFIX. -/
def dstRepoNameOf (env : Env) (srcRepo : String) : String :=
  let reg := if env.srcRegistryVar = "" then "cgr.dev" else env.srcRegistryVar
  let srcNoHost := goTrimPfx srcRepo (reg ++ "/")
  let pfx := goTrimChar (goTrimPfx env.dstPrefixVar "/") ' '
  if pfx ≠ "" then pathJoin pfx srcNoHost else srcNoHost

/-- Outcome of `DescribeRepositories` for one repository: a non-not-found
failure from the oracle, else existence is read off the registry state. -/
inductive DescribeRes where
  | ok
  | notFound
  | failed (msg : String)
deriving DecidableEq, Repr

def describeRepo (w : World) (e : Ecr) (r : String) : DescribeRes :=
  match w.describeErr r with
  | some m => .failed m
  | none => if r ∈ e.repos then .ok else .notFound

/-- Lines 283-301: the Tag Selector.  With COPY_ALL_TAGS the source tag
list is fetched (parse or listing failures are fatal); otherwise the fixed
single tag.  (The Go code returns early when the fetched list is empty;
running the tag loop below on an empty list is observationally identical.) -/
def selectTags (env : Env) (w : World) (srcRepo : String) : Except String (List String) :=
  if goEqualFold env.copyAllTags "true" then
    if ¬ w.newRepoOk srcRepo then .error ("parse src repository: " ++ srcRepo)
    else
      match w.listTagsRes srcRepo with
      | .error m => .error ("list tags for " ++ srcRepo ++ ": " ++ m)
      | .ok ts => .ok ts
  else .ok ["latest"]

/-- The Digest Skip Engine decision (lines 331-337): skip exactly when the
destination lookup succeeded, returned a digest, and that digest equals the
source digest; every other case (call failure, tag absent, different
digest) falls through to the copy. -/
def decideTag (srcDigest : String) (out : LookupOutcome) : Decision :=
  match out with
  | .found existing => if existing = srcDigest then .skip else .transfer
  | _ => .transfer

/-- The observable outcome of the `BatchGetImage` digest query. -/
def lookupOutcome (w : World) (e : Ecr) (r t : String) : LookupOutcome :=
  if w.lookupFails r t then .lookupFailed
  else
    match lookupTag e r t with
    | some d => .found d
    | none => .notFound

/-- Lines 304-359, one iteration of the tag loop: build the two references,
fetch the source descriptor, decide skip/transfer, and on transfer read the
image or index and write it to the destination (recording the new digest). -/
def processTag (w : World) (ep dn sr tag : String) (e : Ecr) :
    Ecr × List Action × Except String Unit :=
  let src := sr ++ ":" ++ tag
  let dst := ep ++ "/" ++ dn ++ ":" ++ tag
  if ¬ w.parseRefOk src then (e, [], .error ("parse src ref " ++ src))
  else if ¬ w.parseRefOk dst then (e, [], .error ("parse dst ref " ++ dst))
  else
    match w.getManifest src with
    | .error msg => (e, [], .error ("get " ++ src ++ ": " ++ msg))
    | .ok desc =>
      match decideTag desc.digest (lookupOutcome w e dn tag) with
      | .skip => (e, [Action.skip tag], .ok ())
      | .transfer =>
        match w.readErr src with
        | some m =>
          (e, [], .error ((if desc.isIndex then "read index " else "read image ")
            ++ src ++ ": " ++ m))
        | none =>
          match w.writeErr dst with
          | some m =>
            (e, [], .error ((if desc.isIndex then "write index to " else "write image to ")
              ++ dst ++ ": " ++ m))
          | none => (setTag e dn tag desc.digest, [Action.transfer tag desc.isIndex], .ok ())

/-- The tag loop: process tags in order, aborting the whole pass at the
first per-tag error (the remaining tags are not reached). -/
def mirrorTags (w : World) (ep dn sr : String) :
    List String → Ecr → Ecr × List Action × Except String Unit
  | [], e => (e, [], .ok ())
  | tag :: rest, e =>
    match processTag w ep dn sr tag e with
    | (e1, acts, .error msg) => (e1, acts, .error msg)
    | (e1, acts, .ok _) =>
      match mirrorTags w ep dn sr rest e1 with
      | (e2, acts2, r) => (e2, acts ++ acts2, r)

/-- Steps 4-5 of `mirrorSingleRepo`: select the tags and run the tag loop,
prefixing the actions accumulated by the repository-creation step. -/
def mirrorFrom (w : World) (env : Env) (ep dn sr : String) (e : Ecr) (acts0 : List Action) :
    Ecr × List Action × Except String Unit :=
  match selectTags env w sr with
  | .error m => (e, acts0, .error m)
  | .ok tags =>
    match mirrorTags w ep dn sr tags e with
    | (e2, acts, r) => (e2, acts0 ++ acts, r)

/-- Function `mirrorSingleRepo`: dry-run short circuit; source-credential check; AWS
config and ECR token; destination repository name; ensure the destination
repository exists (create with scan-on-push on `RepositoryNotFound`, any
creation error fatal, any other describe error fatal); then tags. -/
def mirrorSingleRepo (env : Env) (w : World) (srcRepo : String) (e : Ecr) :
    Ecr × List Action × Except String Unit :=
  if goEqualFold env.mirrorDryRun "true" then (e, [], .ok ())
  else if env.cgrUsername = "" ∨ env.cgrPassword = "" then
    (e, [], .error "CGR_USERNAME/CGR_PASSWORD not set")
  else
    match w.loadCfgErr with
    | some m => (e, [], .error m)
    | none =>
      match ecrAuth w with
      | .error m => (e, [], .error m)
      | .ok (_ecrPass, ecrEndpoint) =>
        let dn := dstRepoNameOf env srcRepo
        match describeRepo w e dn with
        | .failed m => (e, [], .error ("describe ECR repo " ++ dn ++ ": " ++ m))
        | .ok => mirrorFrom w env ecrEndpoint dn srcRepo e []
        | .notFound =>
          match w.createErr dn with
          | some m =>
            (e, [Action.createRepoCall dn true],
             .error ("create ECR repo " ++ dn ++ ": " ++ m))
          | none =>
            mirrorFrom w env ecrEndpoint dn srcRepo
              { e with repos := dn :: e.repos } [Action.createRepoCall dn true]

/-! ### Chained mirrorer: scheduler (`handler`, `invokeSelfAsync`) -/

/-- Function `invokeSelfAsync`: load AWS config, require the function name, marshal
the payload (which cannot fail for a `JobEvent`) and fire the async invoke. -/
def invokeSelfAsync (env : Env) (w : World) (ev : JobEvent) : Except String Unit :=
  match w.loadCfgErr with
  | some m => .error m
  | none =>
    if env.lambdaFunctionName = "" then .error "AWS_LAMBDA_FUNCTION_NAME not set"
    else
      match w.invokeRes ev with
      | some m => .error m
      | none => .ok ()

/-- Observable outcome of one `handler` invocation: the repositories handed
to `mirrorSingleRepo`, the successfully dispatched continuations, whether
the full-sweep completion message was logged, and the returned error. -/
structure HandlerOut where
  mirrored : List String
  invoked : List JobEvent
  completedSweep : Bool
  res : Except String Unit
deriving Repr

/-- Function `handler` (lines 44-100): parse the payload (defaulting to index 0 on a
parse failure), resolve the repository list, return early when it is empty,
serve an explicit repo without chaining, otherwise clamp the index, mirror
the selected repository and chain to the next index if one remains. -/
def handler (env : Env) (w : World) (raw : RawPayload) (e : Ecr) : Ecr × HandlerOut :=
  let evt :=
    match parseJobEvent env.startIndexVar raw with
    | .ok ev => ev
    | .error _ => { index := 0, repo := "" }
  match loadRepoList env w with
  | .error m => (e, ⟨[], [], false, .error ("load repo list: " ++ m)⟩)
  | .ok repos =>
    if repos.length = 0 then (e, ⟨[], [], false, .ok ()⟩)
    else
      let r := goTrimSpace evt.repo
      if r ≠ "" then
        match mirrorSingleRepo env w r e with
        | (e1, _, .error m) =>
          (e1, ⟨[r], [], false, .error ("mirror explicit repo " ++ r ++ ": " ++ m)⟩)
        | (e1, _, .ok _) => (e1, ⟨[r], [], false, .ok ()⟩)
      else
        let idx : Int := if evt.index < (0 : Int) then (0 : Int) else evt.index
        if (repos.length : Int) ≤ idx then (e, ⟨[], [], false, .ok ()⟩)
        else
          let current := repos.getD idx.toNat ""
          match mirrorSingleRepo env w current e with
          | (e1, _, .error m) =>
            (e1, ⟨[current], [], false, .error ("mirror " ++ current ++ ": " ++ m)⟩)
          | (e1, _, .ok _) =>
            let next := idx + 1
            if next < (repos.length : Int) then
              match invokeSelfAsync env w { index := next, repo := "" } with
              | .error m =>
                (e1, ⟨[current], [], false,
                  .error ("invoke self for index=" ++ toString next ++ ": " ++ m)⟩)
              | .ok _ =>
                (e1, ⟨[current], [{ index := next, repo := "" }], false, .ok ()⟩)
            else (e1, ⟨[current], [], true, .ok ()⟩)

/-- A chain of invocations: run `handler`, and when it dispatched a
continuation, run the continuation against the registry state the previous
invocation left behind.  `fuel` bounds the recursion. -/
def chain (env : Env) (w : World) : Nat → JobEvent → Ecr → List JobEvent
  | 0, _, _ => []
  | fuel + 1, evt, e =>
    match handler env w (.valid evt) e with
    | (e1, out) =>
      evt ::
        (match out.invoked with
         | [next] => chain env w fuel next e1
         | _ => [])

/-! ### Full-sync mirrorer (src/cmd/fullsync/main.go) -/

/-- Function `ensureECRRepo`: describe; on success nothing to do; on ANY describe
error attempt creation, and treat a `RepositoryAlreadyExistsException` from
the creation call as success.  Inputs are the outcomes of the two calls
(`none` = call succeeded); the returned Bool records whether a creation
call was performed. -/
def ensureECRRepo (describeRes createRes : Option String) : Bool × Except String Unit :=
  match describeRes with
  | none => (false, .ok ())
  | some _ =>
    match createRes with
    | none => (true, .ok ())
    | some m =>
      (true, if goContains m "RepositoryAlreadyExistsException" then .ok () else .error m)

/-- Function `ecrTagDigest`: `DescribeImages` outcome to (digest, exists).  A
`RepositoryNotFoundException` and an empty / digest-less result are both
"tag does not exist"; any other call failure is returned as an error. -/
def ecrTagDigest (res : Except String (Option String)) : Except String (String × Bool) :=
  match res with
  | .error e =>
    if goContains e "RepositoryNotFoundException" then .ok ("", false) else .error e
  | .ok none => .ok ("", false)
  | .ok (some d) => .ok (d, true)

/-- The full-sync handler's per-tag skip decision (lines 200-212): the
source digest defaults to empty on a source-digest failure; skip only when
the destination lookup succeeded, the tag exists, the source digest is
non-empty and the two digests are equal. -/
def fullsyncShouldSkip (srcDigestRes : Except String String)
    (dstRes : Except String (String × Bool)) : Bool :=
  let srcDigest := match srcDigestRes with | .ok d => d | .error _ => ""
  match dstRes with
  | .error _ => false
  | .ok (dstDigest, ex) => ex && decide (srcDigest ≠ "") && dstDigest == srcDigest

/-! ### Concrete fixtures (used by witnesses and counterexamples) -/

/-- A representative environment: dry-run off, source credentials set, all
repository-list variables empty (so the static fallback list applies),
COPY_ALL_TAGS off. -/
def env0 : Env :=
  { mirrorDryRun := "", cgrUsername := "u", cgrPassword := "p", srcRegistryVar := "",
    dstPrefixVar := "", copyAllTags := "", startIndexVar := "", repoListJson := "",
    repoListCsv := "", repoListSsmParam := "", groupName := "",
    lambdaFunctionName := "fn" }

/-- A fault-free world: every external call succeeds, every source manifest
resolves to the same single-image digest. -/
def w0 : World :=
  { loadCfgErr := none,
    getAuth := .ok ("AWS:pw", "https://123.dkr.ecr.us-east-2.amazonaws.com"),
    describeErr := fun _ => none, createErr := fun _ => none,
    parseRefOk := fun _ => true, newRepoOk := fun _ => true,
    listTagsRes := fun _ => .ok [], getManifest := fun _ => .ok ⟨"sha256:abc", false⟩,
    readErr := fun _ => none, lookupFails := fun _ _ => false,
    writeErr := fun _ => none, invokeRes := fun _ => none,
    ssmParam := fun _ => .error "no ssm", jsonStrings := fun _ => none }

/-- The empty destination registry. -/
def ecr0 : Ecr := ⟨[], []⟩

/-! ### A fault-free run: hypothesis bundle and basic lemmas -/

/-- All hypotheses of a fault-free mirror pass: dry-run off, credentials
present, configuration and authorization succeed, and every registry call
succeeds. -/
structure CleanMirror (env : Env) (w : World) : Prop where
  noDry : goEqualFold env.mirrorDryRun "true" = false
  user : env.cgrUsername ≠ ""
  pw : env.cgrPassword ≠ ""
  cfg : w.loadCfgErr = none
  auth : ∃ p ep, ecrAuth w = Except.ok (p, ep)
  describeOk : ∀ s, w.describeErr s = none
  createOk : ∀ s, w.createErr s = none
  parseOk : ∀ s, w.parseRefOk s = true
  newRepo : ∀ s, w.newRepoOk s = true
  tagsOk : ∀ s, ∃ ts, w.listTagsRes s = Except.ok ts
  manifestOk : ∀ s, ∃ d, w.getManifest s = Except.ok d
  readOk : ∀ s, w.readErr s = none
  lookupOk : ∀ r t, w.lookupFails r t = false
  writeOk : ∀ s, w.writeErr s = none
  invokeOk : ∀ ev, w.invokeRes ev = none
  fn : env.lambdaFunctionName ≠ ""

/-- The digest the source registry currently serves for a reference. -/
def manifestDigest (w : World) (ref : String) : String :=
  match w.getManifest ref with
  | .ok d => d.digest
  | .error _ => ""

theorem setTag_repos (e : Ecr) (r t d : String) : (setTag e r t d).repos = e.repos := rfl

theorem lookupTag_setTag (e : Ecr) (r t d r' t' : String) :
    lookupTag (setTag e r t d) r' t' =
      if (r', t') = (r, t) then some d else lookupTag e r' t' := by
  unfold lookupTag setTag
  simp only [List.find?]
  by_cases h : (r', t') = (r, t)
  · simp [h.symm]
  · have h2 : ((r, t) = (r', t')) = False := by
      simp only [eq_iff_iff, iff_false]
      exact fun he => h he.symm
    simp [h2, h]

/-- The decision is Skip exactly when the lookup returned the source digest. -/
theorem decideTag_eq_skip (d : String) (out : LookupOutcome) :
    decideTag d out = Decision.skip ↔ out = LookupOutcome.found d := by
  cases out with
  | lookupFailed => simp [decideTag]
  | notFound => simp [decideTag]
  | found x =>
    unfold decideTag
    by_cases h : x = d <;> simp [h]

/-- A run of `processTag` leaves the state unchanged or records the source digest
for exactly its tag. -/
theorem processTag_state (w : World) (ep dn sr tag : String) (e : Ecr) :
    (processTag w ep dn sr tag e).1 = e ∨
      ∃ d, (processTag w ep dn sr tag e).1 = setTag e dn tag d := by
  simp only [processTag]
  split
  · exact Or.inl rfl
  · split
    · exact Or.inl rfl
    · split
      · exact Or.inl rfl
      · split
        · exact Or.inl rfl
        · split
          · exact Or.inl rfl
          · split
            · exact Or.inl rfl
            · exact Or.inr ⟨_, rfl⟩

/-- A run of `processTag` never issues a repository-creation call. -/
theorem processTag_no_create (w : World) (ep dn sr tag : String) (e : Ecr) (r : String)
    (b : Bool) : Action.createRepoCall r b ∉ (processTag w ep dn sr tag e).2.1 := by
  simp only [processTag]
  split
  · simp
  · split
    · simp
    · split
      · simp
      · split
        · simp
        · split
          · simp
          · split
            · simp
            · simp

/-- With a successful lookup call, the outcome is `found d` exactly when
the registry records digest `d`. -/
theorem lookupOutcome_found (w : World) (e : Ecr) (r t d : String)
    (hlf : w.lookupFails r t = false) :
    lookupOutcome w e r t = LookupOutcome.found d ↔ lookupTag e r t = some d := by
  unfold lookupOutcome
  rw [hlf]
  cases h : lookupTag e r t <;> simp

/-- A tag whose destination digest equals the source digest is skipped:
no transfer, no state change. -/
theorem processTag_skip (w : World) (ep dn sr tag : String) (e : Ecr) (desc : Desc)
    (hps : w.parseRefOk (sr ++ ":" ++ tag) = true)
    (hpd : w.parseRefOk (ep ++ "/" ++ dn ++ ":" ++ tag) = true)
    (hm : w.getManifest (sr ++ ":" ++ tag) = Except.ok desc)
    (hl : lookupOutcome w e dn tag = LookupOutcome.found desc.digest) :
    processTag w ep dn sr tag e = (e, [Action.skip tag], Except.ok ()) := by
  simp only [processTag, hps, hpd, hm, hl]
  simp [decideTag]

/-- A tag decided Transfer, with the read and write succeeding, records the
source digest at the destination. -/
theorem processTag_transfer (w : World) (ep dn sr tag : String) (e : Ecr) (desc : Desc)
    (hps : w.parseRefOk (sr ++ ":" ++ tag) = true)
    (hpd : w.parseRefOk (ep ++ "/" ++ dn ++ ":" ++ tag) = true)
    (hm : w.getManifest (sr ++ ":" ++ tag) = Except.ok desc)
    (hl : decideTag desc.digest (lookupOutcome w e dn tag) = Decision.transfer)
    (hr : w.readErr (sr ++ ":" ++ tag) = none)
    (hw : w.writeErr (ep ++ "/" ++ dn ++ ":" ++ tag) = none) :
    processTag w ep dn sr tag e =
      (setTag e dn tag desc.digest, [Action.transfer tag desc.isIndex], Except.ok ()) := by
  simp only [processTag, hps, hpd, hm, hl, hr, hw]
  simp

/-- A fault-free tag step succeeds and leaves the destination recording the
source digest for its tag, every other key untouched. -/
theorem processTag_ok (w : World) (ep dn sr tag : String) (e : Ecr) (desc : Desc)
    (hps : w.parseRefOk (sr ++ ":" ++ tag) = true)
    (hpd : w.parseRefOk (ep ++ "/" ++ dn ++ ":" ++ tag) = true)
    (hm : w.getManifest (sr ++ ":" ++ tag) = Except.ok desc)
    (hlf : w.lookupFails dn tag = false)
    (hr : w.readErr (sr ++ ":" ++ tag) = none)
    (hw : w.writeErr (ep ++ "/" ++ dn ++ ":" ++ tag) = none) :
    ∃ e1 acts, processTag w ep dn sr tag e = (e1, acts, Except.ok ()) ∧
      lookupTag e1 dn tag = some desc.digest ∧ e1.repos = e.repos ∧
      ∀ r' t', (r', t') ≠ (dn, tag) → lookupTag e1 r' t' = lookupTag e r' t' := by
  cases hdec : decideTag desc.digest (lookupOutcome w e dn tag) with
  | skip =>
    have hfound := (decideTag_eq_skip _ _).1 hdec
    have hset := (lookupOutcome_found w e dn tag desc.digest hlf).1 hfound
    exact ⟨e, [Action.skip tag], processTag_skip w ep dn sr tag e desc hps hpd hm hfound,
      hset, rfl, fun _ _ _ => rfl⟩
  | transfer =>
    refine ⟨setTag e dn tag desc.digest, [Action.transfer tag desc.isIndex],
      processTag_transfer w ep dn sr tag e desc hps hpd hm hdec hr hw, ?_, rfl, ?_⟩
    · rw [lookupTag_setTag]
      simp
    · intro r' t' hne
      rw [lookupTag_setTag, if_neg hne]

/-- A fault-free tag loop succeeds; afterwards every processed tag's
destination digest equals its source digest, untouched keys are preserved,
and the repository set is unchanged. -/
theorem mirrorTags_clean (w : World) (ep dn sr : String)
    (hps : ∀ s, w.parseRefOk s = true)
    (hm : ∀ s, ∃ d, w.getManifest s = Except.ok d)
    (hlf : ∀ r t, w.lookupFails r t = false)
    (hr : ∀ s, w.readErr s = none)
    (hw : ∀ s, w.writeErr s = none) :
    ∀ tags e, ∃ e1 acts, mirrorTags w ep dn sr tags e = (e1, acts, Except.ok ()) ∧
      e1.repos = e.repos ∧
      (∀ t ∈ tags, lookupTag e1 dn t = some (manifestDigest w (sr ++ ":" ++ t))) ∧
      ∀ r' t', (∀ t ∈ tags, (r', t') ≠ (dn, t)) → lookupTag e1 r' t' = lookupTag e r' t' := by
  intro tags
  induction tags with
  | nil =>
    intro e
    exact ⟨e, [], rfl, rfl, by simp, fun _ _ _ => rfl⟩
  | cons tag rest ih =>
    intro e
    obtain ⟨d, hd⟩ := hm (sr ++ ":" ++ tag)
    obtain ⟨e1, acts, h1, hset, hrepos, hpres⟩ :=
      processTag_ok w ep dn sr tag e d (hps _) (hps _) hd (hlf _ _) (hr _) (hw _)
    obtain ⟨e2, acts2, h2, hrepos2, hall2, hpres2⟩ := ih e1
    have hdig : manifestDigest w (sr ++ ":" ++ tag) = d.digest := by
      unfold manifestDigest
      rw [hd]
    refine ⟨e2, acts ++ acts2, ?_, hrepos2.trans hrepos, ?_, ?_⟩
    · simp only [mirrorTags, h1, h2]
    · intro t ht
      rcases List.mem_cons.1 ht with h | h
      · subst h
        by_cases hmem : t ∈ rest
        · exact hall2 t hmem
        · rw [hpres2 dn t (fun t' ht' => by
            intro hcontra
            have : t = t' := by
              have := congrArg Prod.snd hcontra
              simpa using this
            exact hmem (this ▸ ht')), hset, hdig]
      · exact hall2 t h
    · intro r' t' hne
      rw [hpres2 r' t' (fun t ht => hne t (List.mem_cons_of_mem _ ht)),
        hpres r' t' (hne tag (List.mem_cons_self tag rest))]

/-- When every processed tag already has its source digest recorded, the
tag loop performs only Skip decisions and leaves the state unchanged. -/
theorem mirrorTags_all_skip (w : World) (ep dn sr : String)
    (hps : ∀ s, w.parseRefOk s = true)
    (hm : ∀ s, ∃ d, w.getManifest s = Except.ok d)
    (hlf : ∀ r t, w.lookupFails r t = false) :
    ∀ tags e, (∀ t ∈ tags, lookupTag e dn t = some (manifestDigest w (sr ++ ":" ++ t))) →
      mirrorTags w ep dn sr tags e = (e, tags.map Action.skip, Except.ok ()) := by
  intro tags
  induction tags with
  | nil =>
    intro e _
    rfl
  | cons tag rest ih =>
    intro e hall
    obtain ⟨d, hd⟩ := hm (sr ++ ":" ++ tag)
    have hdig : manifestDigest w (sr ++ ":" ++ tag) = d.digest := by
      unfold manifestDigest
      rw [hd]
    have hfound : lookupOutcome w e dn tag = LookupOutcome.found d.digest := by
      rw [lookupOutcome_found w e dn tag d.digest (hlf _ _), ← hdig]
      exact hall tag (List.mem_cons_self tag rest)
    have h1 := processTag_skip w ep dn sr tag e d (hps _) (hps _) hd hfound
    have h2 := ih e (fun t ht => hall t (List.mem_cons_of_mem _ ht))
    simp [mirrorTags, h1, h2]

/-- The tag loop never issues a repository-creation call. -/
theorem mirrorTags_no_create (w : World) (ep dn sr : String) :
    ∀ tags e r b, Action.createRepoCall r b ∉ (mirrorTags w ep dn sr tags e).2.1 := by
  intro tags
  induction tags with
  | nil =>
    intro e r b
    simp [mirrorTags]
  | cons tag rest ih =>
    intro e r b
    have hp := processTag_no_create w ep dn sr tag e r b
    rcases hpt : processTag w ep dn sr tag e with ⟨e1, acts, res⟩
    rw [hpt] at hp
    cases res with
    | error m =>
      simp only [mirrorTags, hpt]
      exact hp
    | ok _ =>
      rcases hmt : mirrorTags w ep dn sr rest e1 with ⟨e2, acts2, r2⟩
      have hi := ih e1 r b
      rw [hmt] at hi
      simp only [mirrorTags, hpt, hmt, List.mem_append]
      intro h
      rcases h with h | h
      · exact hp h
      · exact hi h

/-- The Tag Selector succeeds whenever reference parsing and tag listing
succeed. -/
theorem selectTags_ok (env : Env) (w : World) (sr : String)
    (hn : ∀ s, w.newRepoOk s = true)
    (ht : ∀ s, ∃ ts, w.listTagsRes s = Except.ok ts) :
    ∃ tags, selectTags env w sr = Except.ok tags := by
  unfold selectTags
  cases hc : goEqualFold env.copyAllTags "true"
  · exact ⟨["latest"], by simp⟩
  · obtain ⟨ts, hts⟩ := ht sr
    refine ⟨ts, ?_⟩
    simp [hn sr, hts]

/-- Unfolding lemma: `mirrorSingleRepo` reduced past the dry-run, credential, configuration,
authorization and describe steps. -/
theorem mirrorSingleRepo_unfold (env : Env) (w : World) (sr : String) (e : Ecr)
    (p ep : String)
    (hdry : goEqualFold env.mirrorDryRun "true" = false)
    (hu : env.cgrUsername ≠ "") (hpw : env.cgrPassword ≠ "")
    (hcfg : w.loadCfgErr = none)
    (hauth : ecrAuth w = Except.ok (p, ep))
    (hdesc : w.describeErr (dstRepoNameOf env sr) = none) :
    mirrorSingleRepo env w sr e =
      (if dstRepoNameOf env sr ∈ e.repos then
        mirrorFrom w env ep (dstRepoNameOf env sr) sr e []
      else
        match w.createErr (dstRepoNameOf env sr) with
        | some m =>
          (e, [Action.createRepoCall (dstRepoNameOf env sr) true],
           Except.error ("create ECR repo " ++ dstRepoNameOf env sr ++ ": " ++ m))
        | none =>
          mirrorFrom w env ep (dstRepoNameOf env sr) sr
            { e with repos := dstRepoNameOf env sr :: e.repos }
            [Action.createRepoCall (dstRepoNameOf env sr) true]) := by
  simp only [mirrorSingleRepo, hdry, hcfg, hauth, describeRepo, hdesc]
  by_cases hmem : dstRepoNameOf env sr ∈ e.repos <;>
    simp [hmem, hu, hpw]

/-- A fault-free repository mirror pass succeeds, ends with the destination
repository existing, and records the source digest for every selected tag. -/
theorem mirrorSingleRepo_clean (env : Env) (w : World) (hc : CleanMirror env w)
    (sr : String) (e : Ecr) :
    ∃ e1 acts tags, selectTags env w sr = Except.ok tags ∧
      mirrorSingleRepo env w sr e = (e1, acts, Except.ok ()) ∧
      dstRepoNameOf env sr ∈ e1.repos ∧
      ∀ t ∈ tags, lookupTag e1 (dstRepoNameOf env sr) t =
        some (manifestDigest w (sr ++ ":" ++ t)) := by
  obtain ⟨p, ep, hauth⟩ := hc.auth
  obtain ⟨tags, htags⟩ := selectTags_ok env w sr hc.newRepo hc.tagsOk
  rw [mirrorSingleRepo_unfold env w sr e p ep hc.noDry hc.user hc.pw hc.cfg hauth
    (hc.describeOk _)]
  by_cases hmem : dstRepoNameOf env sr ∈ e.repos
  · rw [if_pos hmem]
    obtain ⟨e1, acts, hmt, hrepos, hall, _⟩ :=
      mirrorTags_clean w ep (dstRepoNameOf env sr) sr hc.parseOk hc.manifestOk
        hc.lookupOk hc.readOk hc.writeOk tags e
    refine ⟨e1, [] ++ acts, tags, htags, ?_, ?_, hall⟩
    · simp only [mirrorFrom, htags, hmt]
    · rw [hrepos]
      exact hmem
  · rw [if_neg hmem]
    simp only [hc.createOk]
    obtain ⟨e1, acts, hmt, hrepos, hall, _⟩ :=
      mirrorTags_clean w ep (dstRepoNameOf env sr) sr hc.parseOk hc.manifestOk
        hc.lookupOk hc.readOk hc.writeOk tags
        { e with repos := dstRepoNameOf env sr :: e.repos }
    refine ⟨e1, [Action.createRepoCall (dstRepoNameOf env sr) true] ++ acts, tags, htags,
      ?_, ?_, hall⟩
    · simp only [mirrorFrom, htags, hmt]
    · rw [hrepos]
      exact List.mem_cons_self _ _

/-- A fault-free repository mirror pass returns success. -/
theorem mirrorSingleRepo_ok (env : Env) (w : World) (hc : CleanMirror env w)
    (sr : String) (e : Ecr) : (mirrorSingleRepo env w sr e).2.2 = Except.ok () := by
  obtain ⟨e1, acts, tags, _, heq, _, _⟩ := mirrorSingleRepo_clean env w hc sr e
  rw [heq]

theorem invokeSelfAsync_ok (env : Env) (w : World) (ev : JobEvent)
    (hcfg : w.loadCfgErr = none) (hfn : env.lambdaFunctionName ≠ "")
    (hinv : w.invokeRes ev = none) : invokeSelfAsync env w ev = Except.ok () := by
  unfold invokeSelfAsync
  rw [hcfg]
  simp [hfn, hinv]

theorem goTrimSpace_empty : goTrimSpace "" = "" := rfl

/-- Unfolding lemma: `handler` on an in-range indexed event, reduced past the guards: it
mirrors the repository at the index and then either chains or completes. -/
theorem handler_indexed (env : Env) (w : World) (repos : List String)
    (hload : loadRepoList env w = Except.ok repos) (i : Int) (e : Ecr)
    (h0 : 0 ≤ i) (hi : i < (repos.length : Int)) :
    handler env w (RawPayload.valid ⟨i, ""⟩) e =
      (match mirrorSingleRepo env w (repos.getD i.toNat "") e with
       | (e1, _, .error m) =>
         (e1, ⟨[repos.getD i.toNat ""], [], false,
           Except.error ("mirror " ++ repos.getD i.toNat "" ++ ": " ++ m)⟩)
       | (e1, _, .ok _) =>
         if i + 1 < (repos.length : Int) then
           match invokeSelfAsync env w ⟨i + 1, ""⟩ with
           | .error m =>
             (e1, ⟨[repos.getD i.toNat ""], [], false,
               Except.error ("invoke self for index=" ++ toString (i + 1) ++ ": " ++ m)⟩)
           | .ok _ => (e1, ⟨[repos.getD i.toNat ""], [⟨i + 1, ""⟩], false, Except.ok ()⟩)
         else (e1, ⟨[repos.getD i.toNat ""], [], true, Except.ok ()⟩)) := by
  have hne : ¬ repos.length = 0 := by omega
  have hclamp : (if i < (0 : Int) then (0 : Int) else i) = i := if_neg (not_lt.2 h0)
  have hguard : ¬ ((repos.length : Int) ≤ i) := not_le.2 hi
  simp only [handler, parseJobEvent, hload, goTrimSpace_empty, hclamp]
  rw [if_neg hne]
  simp only [ne_eq, not_true_eq_false, if_neg hguard]
  simp

/-- The fault-free step of the scheduler: mirror the current repository and
either chain to the next index or complete. -/
theorem handler_step_clean (env : Env) (w : World) (repos : List String)
    (hc : CleanMirror env w) (hload : loadRepoList env w = Except.ok repos)
    (i : Int) (e : Ecr) (h0 : 0 ≤ i) (hi : i < (repos.length : Int)) :
    handler env w (RawPayload.valid ⟨i, ""⟩) e =
      ((mirrorSingleRepo env w (repos.getD i.toNat "") e).1,
       ⟨[repos.getD i.toNat ""],
        if i + 1 < (repos.length : Int) then [⟨i + 1, ""⟩] else [],
        if i + 1 < (repos.length : Int) then false else true,
        Except.ok ()⟩) := by
  rw [handler_indexed env w repos hload i e h0 hi]
  rcases hm : mirrorSingleRepo env w (repos.getD i.toNat "") e with ⟨e1, acts, res⟩
  have hok := mirrorSingleRepo_ok env w hc (repos.getD i.toNat "") e
  rw [hm] at hok
  simp only at hok
  subst hok
  by_cases hnext : i + 1 < (repos.length : Int)
  · rw [invokeSelfAsync_ok env w ⟨i + 1, ""⟩ hc.cfg hc.fn (hc.invokeOk _)]
    simp [hnext]
  · simp [hnext]

/-- A fault-free chain starting at index `i` with `k = length - i`
repositories left performs exactly `k` invocations, all with in-range
indexed events. -/
theorem chain_clean (env : Env) (w : World) (repos : List String)
    (hc : CleanMirror env w) (hload : loadRepoList env w = Except.ok repos) :
    ∀ (k : Nat), 1 ≤ k → ∀ (fuel : Nat) (i : Int) (e : Ecr), 0 ≤ i →
      i + (k : Int) = (repos.length : Int) → k ≤ fuel →
      (chain env w fuel ⟨i, ""⟩ e).length = k ∧
      ∀ ev ∈ chain env w fuel ⟨i, ""⟩ e,
        0 ≤ ev.index ∧ ev.index < (repos.length : Int) ∧ ev.repo = "" := by
  intro k
  induction k with
  | zero => omega
  | succ k ih =>
    intro _ fuel i e h0 hsum hfuel
    obtain ⟨fuel', rfl⟩ : ∃ f, fuel = f + 1 := ⟨fuel - 1, by omega⟩
    have hi : i < (repos.length : Int) := by omega
    have hstep := handler_step_clean env w repos hc hload i e h0 hi
    by_cases hk : k = 0
    · subst hk
      have hnext : ¬ (i + 1 < (repos.length : Int)) := by omega
      rw [if_neg hnext, if_neg hnext] at hstep
      simp only [chain, hstep]
      refine ⟨rfl, ?_⟩
      intro ev hev
      simp only [List.mem_singleton] at hev
      subst hev
      exact ⟨h0, hi, rfl⟩
    · have hnext : i + 1 < (repos.length : Int) := by omega
      rw [if_pos hnext, if_pos hnext] at hstep
      simp only [chain, hstep]
      obtain ⟨hlen, hmem⟩ := ih (by omega) fuel' (i + 1)
        (mirrorSingleRepo env w (repos.getD i.toNat "") e).1 (by omega) (by omega)
        (by omega)
      constructor
      · simp only [List.length_cons, hlen]
      intro ev hev
      rcases List.mem_cons.1 hev with h | h
      · subst h
        exact ⟨h0, hi, rfl⟩
      · exact hmem ev h

/-! ### C1 -/

/-- C1: for every tag processed during a repository mirror pass, the mirror
decision is Skip if and only if the destination's recorded digest is
present and equal (byte-for-byte) to the source digest; every other case is
Transfer, and a tag whose destination digest equals the source digest is
never re-transferred — the pass records a Skip action, performs no write
and leaves the registry state unchanged. -/
theorem C1_skip_iff_digest_equal :
    (∀ (d : String) (out : LookupOutcome),
      decideTag d out = Decision.skip ↔ out = LookupOutcome.found d) ∧
    (∀ (w : World) (ep dn sr tag : String) (e : Ecr) (desc : Desc),
      w.parseRefOk (sr ++ ":" ++ tag) = true →
      w.parseRefOk (ep ++ "/" ++ dn ++ ":" ++ tag) = true →
      w.getManifest (sr ++ ":" ++ tag) = Except.ok desc →
      lookupOutcome w e dn tag = LookupOutcome.found desc.digest →
      processTag w ep dn sr tag e = (e, [Action.skip tag], Except.ok ())) :=
  ⟨decideTag_eq_skip, processTag_skip⟩

/-- Witness for C1 at a concrete input: the destination already records the
source digest for the tag, so the tag is skipped. -/
theorem C1_skip_iff_digest_equal_witness :
    processTag w0 "ep" "g/app" "cgr.dev/g/app" "latest"
      ⟨["g/app"], [(("g/app", "latest"), "sha256:abc")]⟩ =
      (⟨["g/app"], [(("g/app", "latest"), "sha256:abc")]⟩,
       [Action.skip "latest"], Except.ok ()) :=
  C1_skip_iff_digest_equal.2 w0 "ep" "g/app" "cgr.dev/g/app" "latest"
    ⟨["g/app"], [(("g/app", "latest"), "sha256:abc")]⟩ ⟨"sha256:abc", false⟩
    rfl rfl rfl (by decide)

/-! ### C4 -/

/-- C4: an indexed invocation with a negative index behaves identically to
index 0, and an index at or past the end of the resolved list is a
successful no-op (nothing mirrored, nothing dispatched, no error). -/
theorem C4_index_clamping :
    (∀ (env : Env) (w : World) (i : Int) (e : Ecr), i < 0 →
      handler env w (RawPayload.valid ⟨i, ""⟩) e =
        handler env w (RawPayload.valid ⟨0, ""⟩) e) ∧
    (∀ (env : Env) (w : World) (repos : List String) (i : Int) (e : Ecr),
      loadRepoList env w = Except.ok repos → (repos.length : Int) ≤ i →
      handler env w (RawPayload.valid ⟨i, ""⟩) e = (e, ⟨[], [], false, Except.ok ()⟩)) := by
  constructor
  · intro env w i e hi
    have h1 : (if i < (0 : Int) then (0 : Int) else i) = 0 := if_pos hi
    have h2 : (if (0 : Int) < (0 : Int) then (0 : Int) else (0 : Int)) = 0 := by simp
    simp only [handler, parseJobEvent, h1, h2]
  · intro env w repos i e hload hi
    have h0 : (0 : Int) ≤ i := le_trans (by positivity) hi
    have hclamp : (if i < (0 : Int) then (0 : Int) else i) = i := if_neg (not_lt.2 h0)
    simp only [handler, parseJobEvent, hload, goTrimSpace_empty, hclamp]
    by_cases hlen : repos.length = 0
    · simp [hlen]
    · rw [if_neg hlen]
      simp [hi]

/-- Witness for C4 at concrete inputs: index -5 equals index 0, and index 3
on the three-element fallback list is a successful no-op. -/
theorem C4_index_clamping_witness :
    handler env0 w0 (RawPayload.valid ⟨-5, ""⟩) ecr0 =
      handler env0 w0 (RawPayload.valid ⟨0, ""⟩) ecr0 ∧
    handler env0 w0 (RawPayload.valid ⟨3, ""⟩) ecr0 = (ecr0, ⟨[], [], false, Except.ok ()⟩) :=
  ⟨C4_index_clamping.1 env0 w0 (-5) ecr0 (by decide),
   C4_index_clamping.2 env0 w0
     ["cgr.dev/chainguard/foo", "cgr.dev/chainguard/bar", "cgr.dev/chainguard/baz"]
     3 ecr0 (by decide) (by decide)⟩

/-! ### C5 -/

/-- C5: when fetching the source manifest for a tag fails, the whole
repository pass fails with the wrapped get error: the remaining tags are
not processed (no further actions), and at the scheduler level the
invocation terminates with an error and dispatches no continuation. -/
theorem C5_source_read_error_fatal :
    (∀ (w : World) (ep dn sr tag : String) (rest : List String) (e : Ecr) (msg : String),
      w.parseRefOk (sr ++ ":" ++ tag) = true →
      w.parseRefOk (ep ++ "/" ++ dn ++ ":" ++ tag) = true →
      w.getManifest (sr ++ ":" ++ tag) = Except.error msg →
      mirrorTags w ep dn sr (tag :: rest) e =
        (e, [], Except.error ("get " ++ (sr ++ ":" ++ tag) ++ ": " ++ msg))) ∧
    (∀ (env : Env) (w : World) (repos : List String) (i : Int) (e e1 : Ecr)
       (acts : List Action) (msg : String),
      loadRepoList env w = Except.ok repos → 0 ≤ i → i < (repos.length : Int) →
      mirrorSingleRepo env w (repos.getD i.toNat "") e = (e1, acts, Except.error msg) →
      handler env w (RawPayload.valid ⟨i, ""⟩) e =
        (e1, ⟨[repos.getD i.toNat ""], [], false,
          Except.error ("mirror " ++ repos.getD i.toNat "" ++ ": " ++ msg)⟩)) := by
  constructor
  · intro w ep dn sr tag rest e msg hps hpd hm
    simp only [mirrorTags, processTag, hps, hpd, hm]
    simp
  · intro env w repos i e e1 acts msg hload h0 hi hm
    rw [handler_indexed env w repos hload i e h0 hi, hm]

/-- A world whose source registry refuses every manifest fetch. -/
def wErr : World := { w0 with getManifest := fun _ => Except.error "boom" }

/-- Witness for C5 at concrete inputs: with the source registry failing,
the first tag aborts the loop and the invocation errors with no
continuation. -/
theorem C5_source_read_error_fatal_witness :
    mirrorTags wErr "ep" "dn" "sr" ["t1", "t2"] ecr0 =
      (ecr0, [], Except.error ("get " ++ ("sr" ++ ":" ++ "t1") ++ ": " ++ "boom")) ∧
    handler env0 wErr (RawPayload.valid ⟨0, ""⟩) ecr0 =
      (⟨["chainguard/foo"], []⟩, ⟨["cgr.dev/chainguard/foo"], [], false,
        Except.error ("mirror " ++ "cgr.dev/chainguard/foo" ++ ": " ++
          "get cgr.dev/chainguard/foo:latest: boom")⟩) :=
  ⟨C5_source_read_error_fatal.1 wErr "ep" "dn" "sr" "t1" ["t2"] ecr0 "boom" rfl rfl rfl,
   C5_source_read_error_fatal.2 env0 wErr
     ["cgr.dev/chainguard/foo", "cgr.dev/chainguard/bar", "cgr.dev/chainguard/baz"]
     0 ecr0 ⟨["chainguard/foo"], []⟩
     [Action.createRepoCall "chainguard/foo" true]
     "get cgr.dev/chainguard/foo:latest: boom" (by decide) (by decide) (by decide)
     (by decide)⟩

/-! ### C6 -/

/-- C6: a destination digest lookup failure and a tag-not-found are both
cache-misses: the decision is Transfer (and, the read and write
succeeding, the tag is actually transferred), and in the full-sync
mirrorer a failed or not-found destination lookup likewise never causes a
skip.  A lookup failure is non-fatal. -/
theorem C6_lookup_failure_is_cache_miss :
    (∀ d : String, decideTag d LookupOutcome.lookupFailed = Decision.transfer ∧
      decideTag d LookupOutcome.notFound = Decision.transfer) ∧
    (∀ (w : World) (ep dn sr tag : String) (e : Ecr) (desc : Desc),
      w.parseRefOk (sr ++ ":" ++ tag) = true →
      w.parseRefOk (ep ++ "/" ++ dn ++ ":" ++ tag) = true →
      w.getManifest (sr ++ ":" ++ tag) = Except.ok desc →
      (lookupOutcome w e dn tag = LookupOutcome.lookupFailed ∨
        lookupOutcome w e dn tag = LookupOutcome.notFound) →
      w.readErr (sr ++ ":" ++ tag) = none →
      w.writeErr (ep ++ "/" ++ dn ++ ":" ++ tag) = none →
      processTag w ep dn sr tag e =
        (setTag e dn tag desc.digest, [Action.transfer tag desc.isIndex], Except.ok ())) ∧
    (∀ (srcRes : Except String String) (msg : String),
      fullsyncShouldSkip srcRes (ecrTagDigest (Except.error msg)) = false) ∧
    (∀ (srcRes : Except String String) (d : String),
      fullsyncShouldSkip srcRes (Except.ok (d, false)) = false) := by
  refine ⟨fun d => ⟨rfl, rfl⟩, ?_, ?_, ?_⟩
  · intro w ep dn sr tag e desc hps hpd hm hl hr hw
    refine processTag_transfer w ep dn sr tag e desc hps hpd hm ?_ hr hw
    rcases hl with h | h <;> rw [h] <;> rfl
  · intro srcRes msg
    unfold ecrTagDigest
    cases hgc : goContains msg "RepositoryNotFoundException" <;>
      simp [fullsyncShouldSkip, hgc]
  · intro srcRes d
    simp [fullsyncShouldSkip]

/-- Witness for C6 at a concrete input: the tag is absent at the
destination, so it is transferred. -/
theorem C6_lookup_failure_is_cache_miss_witness :
    processTag w0 "ep" "g/app" "cgr.dev/g/app" "latest" ecr0 =
      (setTag ecr0 "g/app" "latest" "sha256:abc",
       [Action.transfer "latest" false], Except.ok ()) :=
  C6_lookup_failure_is_cache_miss.2.1 w0 "ep" "g/app" "cgr.dev/g/app" "latest" ecr0
    ⟨"sha256:abc", false⟩ rfl rfl rfl (Or.inr (by decide)) rfl rfl

/-! ### C10 -/

/-- C10: a non-empty trigger payload that is not valid JSON for a Job
Descriptor makes the invocation proceed as an indexed job with index 0,
without consulting START_INDEX (changing START_INDEX does not change the
outcome); START_INDEX is applied exactly when the payload is absent/empty. -/
theorem C10_invalid_payload_index_zero :
    (∀ (env : Env) (w : World) (s : String) (e : Ecr),
      handler { env with startIndexVar := s } w RawPayload.invalid e =
        handler env w (RawPayload.valid ⟨0, ""⟩) e) ∧
    (∀ (env : Env) (w : World) (e : Ecr),
      handler env w RawPayload.empty e =
        handler env w (RawPayload.valid ⟨startIndexVal env.startIndexVar, ""⟩) e) :=
  ⟨fun _ _ _ _ => rfl, fun _ _ _ => rfl⟩

/-! ### C2 -/

/-- The bundle `CleanMirror` holds for the concrete fault-free fixtures. -/
theorem cleanMirror0 : CleanMirror env0 w0 :=
  { noDry := by decide, user := by decide, pw := by decide, cfg := rfl,
    auth := ⟨"pw", "123.dkr.ecr.us-east-2.amazonaws.com", by decide⟩,
    describeOk := fun _ => rfl, createOk := fun _ => rfl, parseOk := fun _ => rfl,
    newRepo := fun _ => rfl, tagsOk := fun _ => ⟨[], rfl⟩,
    manifestOk := fun _ => ⟨⟨"sha256:abc", false⟩, rfl⟩, readOk := fun _ => rfl,
    lookupOk := fun _ _ => rfl, writeOk := fun _ => rfl, invokeOk := fun _ => rfl,
    fn := by decide }

/-- C2: an indexed invocation that successfully mirrors the repository at
index i of a list of length N dispatches exactly the one continuation
Job Descriptor with index i+1 and terminates successfully when i+1 < N,
and terminates successfully reporting full-sweep completion with no
continuation when i+1 = N; hence a failure-free sweep from index 0
comprises exactly N invocations, all of whose scheduled indices are below
N. -/
theorem C2_chaining_termination (env : Env) (w : World) (repos : List String)
    (hc : CleanMirror env w) (hload : loadRepoList env w = Except.ok repos) :
    (∀ (i : Int) (e : Ecr), 0 ≤ i → i < (repos.length : Int) →
      (i + 1 < (repos.length : Int) →
        (handler env w (RawPayload.valid ⟨i, ""⟩) e).2.invoked = [⟨i + 1, ""⟩] ∧
        (handler env w (RawPayload.valid ⟨i, ""⟩) e).2.res = Except.ok () ∧
        (handler env w (RawPayload.valid ⟨i, ""⟩) e).2.completedSweep = false) ∧
      (i + 1 = (repos.length : Int) →
        (handler env w (RawPayload.valid ⟨i, ""⟩) e).2.invoked = [] ∧
        (handler env w (RawPayload.valid ⟨i, ""⟩) e).2.res = Except.ok () ∧
        (handler env w (RawPayload.valid ⟨i, ""⟩) e).2.completedSweep = true)) ∧
    (∀ e : Ecr, 1 ≤ repos.length →
      (chain env w repos.length ⟨0, ""⟩ e).length = repos.length ∧
      ∀ ev ∈ chain env w repos.length ⟨0, ""⟩ e,
        0 ≤ ev.index ∧ ev.index < (repos.length : Int)) := by
  constructor
  · intro i e h0 hi
    have hstep := handler_step_clean env w repos hc hload i e h0 hi
    constructor
    · intro hnext
      rw [hstep]
      simp [hnext]
    · intro hlast
      have hnot : ¬ (i + 1 < (repos.length : Int)) := by omega
      rw [hstep]
      simp [hnot]
  · intro e hlen
    obtain ⟨h1, h2⟩ := chain_clean env w repos hc hload repos.length hlen repos.length
      0 e le_rfl (by omega) le_rfl
    exact ⟨h1, fun ev hev => ⟨(h2 ev hev).1, (h2 ev hev).2.1⟩⟩

/-- Witness for C2 at the concrete fixtures: the first invocation over the
three-element fallback list chains to index 1, and the full chain has
exactly three invocations. -/
theorem C2_chaining_termination_witness :
    (handler env0 w0 (RawPayload.valid ⟨0, ""⟩) ecr0).2.invoked = [⟨1, ""⟩] ∧
    (chain env0 w0 3 ⟨0, ""⟩ ecr0).length = 3 := by
  have h := C2_chaining_termination env0 w0
    ["cgr.dev/chainguard/foo", "cgr.dev/chainguard/bar", "cgr.dev/chainguard/baz"]
    cleanMirror0 (by decide)
  exact ⟨((h.1 0 ecr0 (by decide) (by decide)).1 (by decide)).1,
    (h.2 ecr0 (by decide)).1⟩

/-! ### C3 -/

/-- An environment whose repository list resolves to the empty list. -/
def envE : Env := { env0 with repoListJson := "[]" }

/-- A world whose JSON decoder decodes the empty array. -/
def wE : World := { w0 with jsonStrings := fun s => if s = "[]" then some [] else none }

/-- Counterexample to C3 as stated: a Job Descriptor with a non-empty repo
field, but a resolved repository list that is empty.  The claim says the
invocation processes exactly that one repository; the code returns before
the explicit-repo branch when the resolved list is empty, so nothing is
processed (and the invocation reports success). -/
theorem C3_counterexample :
    (handler envE wE (RawPayload.valid ⟨0, "cgr.dev/g/app"⟩) ecr0).2.mirrored = [] ∧
    (handler envE wE (RawPayload.valid ⟨0, "cgr.dev/g/app"⟩) ecr0).2.res = Except.ok () ∧
    ([] : List String) ≠ ["cgr.dev/g/app"] := by decide

/-- C3 (amended): an invocation whose Job Descriptor has a non-empty repo
field never dispatches a continuation, whatever the resolved list; and
provided the resolved repository list is non-empty, it processes exactly
that one (trimmed) repository.  (With an empty or unresolvable list the
invocation terminates without processing the explicit repository.) -/
theorem C3_amended_explicit_repo :
    (∀ (env : Env) (w : World) (evt : JobEvent) (e : Ecr),
      goTrimSpace evt.repo ≠ "" →
      (handler env w (RawPayload.valid evt) e).2.invoked = []) ∧
    (∀ (env : Env) (w : World) (repos : List String) (evt : JobEvent) (e : Ecr),
      loadRepoList env w = Except.ok repos → repos.length ≠ 0 →
      goTrimSpace evt.repo ≠ "" →
      (handler env w (RawPayload.valid evt) e).2.mirrored = [goTrimSpace evt.repo] ∧
      (handler env w (RawPayload.valid evt) e).2.invoked = []) := by
  constructor
  · intro env w evt e hr
    simp only [handler, parseJobEvent]
    rcases hl : loadRepoList env w with m | repos
    · rfl
    · by_cases hlen : repos.length = 0
      · simp [hlen]
      · rcases hm : mirrorSingleRepo env w (goTrimSpace evt.repo) e with ⟨e1, acts, res⟩
        cases res <;> simp [hlen, hr, hm]
  · intro env w repos evt e hl hlen hr
    simp only [handler, parseJobEvent, hl]
    rcases hm : mirrorSingleRepo env w (goTrimSpace evt.repo) e with ⟨e1, acts, res⟩
    cases res <;> simp [hlen, hr, hm]

/-- Witness for the amended C3 at concrete inputs: with the non-empty
fallback list, an explicit (untrimmed) repo is processed alone, with no
continuation. -/
theorem C3_amended_explicit_repo_witness :
    (handler env0 w0 (RawPayload.valid ⟨5, " cgr.dev/g/app "⟩) ecr0).2.mirrored =
      [goTrimSpace " cgr.dev/g/app "] ∧
    (handler env0 w0 (RawPayload.valid ⟨5, " cgr.dev/g/app "⟩) ecr0).2.invoked = [] :=
  C3_amended_explicit_repo.2 env0 w0
    ["cgr.dev/chainguard/foo", "cgr.dev/chainguard/bar", "cgr.dev/chainguard/baz"]
    ⟨5, " cgr.dev/g/app "⟩ ecr0 (by decide) (by decide) (by decide)

/-! ### C7 -/

/-- An environment that resolves the repository list from CSV text with a
repeated entry. -/
def envC : Env := { env0 with repoListCsv := "a,a" }

/-- Counterexample to C7 as stated: with REPO_LIST_CSV = "a,a" the resolved
repository list contains the identifier "a" at two distinct positions —
`normalizeRepoList` trims and drops blanks but does not deduplicate. -/
theorem C7_counterexample :
    loadRepoList envC w0 = Except.ok ["a", "a"] ∧
    (["a", "a"].getD 0 "" = ["a", "a"].getD 1 "" ∧ (0 : Nat) ≠ 1) := by decide

/-- Every entry of a normalized list is the non-empty trimmed form of an
input entry. -/
theorem normalizeRepoList_mem (l : List String) (t : String)
    (ht : t ∈ normalizeRepoList l) : t ≠ "" ∧ ∃ s ∈ l, t = goTrimSpace s := by
  rw [normalizeRepoList, List.mem_filterMap] at ht
  obtain ⟨s, hs, hf⟩ := ht
  by_cases h : goTrimSpace s = ""
  · rw [if_pos h] at hf
    exact absurd hf (by simp)
  · rw [if_neg h] at hf
    have heq := Option.some.inj hf
    exact ⟨heq ▸ h, s, hs, heq.symm⟩

/-- Projection `String.data` distributes over append. -/
theorem data_append (a b : String) : (a ++ b).data = a.data ++ b.data := by
  cases a
  cases b
  rfl

/-- A string with a non-empty suffix appended is non-empty. -/
theorem append_suffix_ne_empty (a b : String) (hb : b.data ≠ []) : a ++ b ≠ "" := by
  intro h
  apply hb
  have hd := congrArg String.data h
  rw [data_append] at hd
  exact (List.append_eq_nil.mp hd).2

/-- Every entry of an SSM-resolved repository list is non-empty. -/
theorem loadReposFromSSM_mem (w : World) (p : String) (repos : List String)
    (hok : loadReposFromSSM w p = Except.ok repos) : ∀ t ∈ repos, t ≠ "" := by
  unfold loadReposFromSSM at hok
  split at hok
  · exact absurd hok (by simp)
  · split at hok
    · exact absurd hok (by simp)
    · exact absurd hok (by simp)
    · split at hok
      · cases hok
        intro t ht
        exact (normalizeRepoList_mem _ t ht).1
      · cases hok
        intro t ht
        exact (normalizeRepoList_mem _ t ht).1

/-- C7 (amended): the resolved repository list is normalized — every entry
of `normalizeRepoList` is the non-empty trimmed form of an input entry, and
every entry of any successfully resolved repository list is non-empty —
but it is NOT deduplicated: an identifier may occur at two distinct
positions (see the counterexample). -/
theorem C7_amended_normalized_not_deduplicated :
    (∀ (l : List String) (t : String), t ∈ normalizeRepoList l →
      t ≠ "" ∧ ∃ s ∈ l, t = goTrimSpace s) ∧
    (∀ (env : Env) (w : World) (repos : List String),
      loadRepoList env w = Except.ok repos → ∀ t ∈ repos, t ≠ "") := by
  refine ⟨normalizeRepoList_mem, ?_⟩
  intro env w repos hok t ht
  unfold loadRepoList at hok
  split at hok
  · cases hok
    exact (normalizeRepoList_mem _ t ht).1
  · split at hok
    · cases hok
      exact (normalizeRepoList_mem _ t ht).1
    · split at hok
      · split at hok
        · exact absurd hok (by simp)
        · rename_i l2 hssm
          cases hok
          exact loadReposFromSSM_mem w _ _ hssm t ht
      · cases hok
        unfold fallbackRepos at ht
        simp only [List.mem_cons, List.not_mem_nil, or_false] at ht
        rcases ht with h | h | h
        · exact h ▸ append_suffix_ne_empty _ "foo" (by decide)
        · exact h ▸ append_suffix_ne_empty _ "bar" (by decide)
        · exact h ▸ append_suffix_ne_empty _ "baz" (by decide)

/-- Witness for the amended C7 at a concrete input: the entry " a " is
trimmed to the non-empty "a". -/
theorem C7_amended_normalized_not_deduplicated_witness :
    ("a" : String) ≠ "" ∧ ∃ s ∈ ([" a ", ""] : List String), "a" = goTrimSpace s :=
  C7_amended_normalized_not_deduplicated.1 [" a ", ""] "a" (by decide)

/-! ### C8 -/

/-- A world whose repository-creation call fails with an already-exists
error (for example because another writer created the repository between
the describe call and the create call). -/
def wAE : World :=
  { w0 with createErr :=
      fun _ => some "RepositoryAlreadyExistsException: repo exists" }

/-- Counterexample to C8 as stated: in the chained mirrorer
(`mirrorSingleRepo`), an "already exists" error returned by the creation
call itself is NOT treated as success — it is fatal for the pass.  With
the destination repository absent (describe reports not-found) and the
creation call failing with a RepositoryAlreadyExistsException, the pass
returns an error. -/
theorem C8_counterexample :
    mirrorSingleRepo env0 wAE "cgr.dev/g/app" ecr0 =
      (ecr0, [Action.createRepoCall "g/app" true],
       Except.error
         ("create ECR repo g/app: RepositoryAlreadyExistsException: repo exists")) ∧
    goContains "RepositoryAlreadyExistsException: repo exists"
      "RepositoryAlreadyExistsException" = true := by decide

/-- C8 (amended): in every non-dry-run pass whose existence check
completes: if the repository is absent (describe reports not-found) and
creation succeeds, exactly one creation call — with scan-on-push enabled —
precedes any tag processing and no other creation call occurs; if the
existence check succeeds (repository already exists) no creation call is
made; in the chained mirrorer ANY creation-call error (including "already
exists") and any non-not-found existence-check error are fatal for the
pass.  Only the full-sync mirrorer's `ensureECRRepo` treats an "already
exists" creation error as success (performing no creation when describe
succeeds, and attempting creation after any describe failure). -/
theorem C8_amended_repo_creation :
    (∀ (env : Env) (w : World) (sr : String) (e : Ecr) (p ep : String),
      goEqualFold env.mirrorDryRun "true" = false →
      env.cgrUsername ≠ "" → env.cgrPassword ≠ "" →
      w.loadCfgErr = none → ecrAuth w = Except.ok (p, ep) →
      w.describeErr (dstRepoNameOf env sr) = none →
      dstRepoNameOf env sr ∉ e.repos →
      w.createErr (dstRepoNameOf env sr) = none →
      ∃ tagActs res,
        mirrorSingleRepo env w sr e =
          ((mirrorSingleRepo env w sr e).1,
           Action.createRepoCall (dstRepoNameOf env sr) true :: tagActs, res) ∧
        ∀ r b, Action.createRepoCall r b ∉ tagActs) ∧
    (∀ (env : Env) (w : World) (sr : String) (e : Ecr) (p ep : String),
      goEqualFold env.mirrorDryRun "true" = false →
      env.cgrUsername ≠ "" → env.cgrPassword ≠ "" →
      w.loadCfgErr = none → ecrAuth w = Except.ok (p, ep) →
      w.describeErr (dstRepoNameOf env sr) = none →
      dstRepoNameOf env sr ∈ e.repos →
      ∀ r b, Action.createRepoCall r b ∉ (mirrorSingleRepo env w sr e).2.1) ∧
    (∀ (env : Env) (w : World) (sr : String) (e : Ecr) (p ep m : String),
      goEqualFold env.mirrorDryRun "true" = false →
      env.cgrUsername ≠ "" → env.cgrPassword ≠ "" →
      w.loadCfgErr = none → ecrAuth w = Except.ok (p, ep) →
      w.describeErr (dstRepoNameOf env sr) = none →
      dstRepoNameOf env sr ∉ e.repos →
      w.createErr (dstRepoNameOf env sr) = some m →
      mirrorSingleRepo env w sr e =
        (e, [Action.createRepoCall (dstRepoNameOf env sr) true],
         Except.error ("create ECR repo " ++ dstRepoNameOf env sr ++ ": " ++ m))) ∧
    (∀ (env : Env) (w : World) (sr : String) (e : Ecr) (p ep m : String),
      goEqualFold env.mirrorDryRun "true" = false →
      env.cgrUsername ≠ "" → env.cgrPassword ≠ "" →
      w.loadCfgErr = none → ecrAuth w = Except.ok (p, ep) →
      w.describeErr (dstRepoNameOf env sr) = some m →
      mirrorSingleRepo env w sr e =
        (e, [], Except.error ("describe ECR repo " ++ dstRepoNameOf env sr ++ ": " ++ m))) ∧
    (∀ createRes, ensureECRRepo none createRes = (false, Except.ok ())) ∧
    (∀ dm, ensureECRRepo (some dm) none = (true, Except.ok ())) ∧
    (∀ dm m, goContains m "RepositoryAlreadyExistsException" = true →
      ensureECRRepo (some dm) (some m) = (true, Except.ok ())) ∧
    (∀ dm m, goContains m "RepositoryAlreadyExistsException" = false →
      ensureECRRepo (some dm) (some m) = (true, Except.error m)) := by
  refine ⟨?_, ?_, ?_, ?_, fun _ => rfl, fun _ => rfl, ?_, ?_⟩
  · intro env w sr e p ep hdry hu hpw hcfg hauth hdesc hmem hcreate
    rw [mirrorSingleRepo_unfold env w sr e p ep hdry hu hpw hcfg hauth hdesc,
      if_neg hmem]
    simp only [hcreate]
    unfold mirrorFrom
    rcases hsel : selectTags env w sr with m | tags
    · exact ⟨[], Except.error m, by simp, fun r b h => absurd h (List.not_mem_nil _)⟩
    · rcases hmt : mirrorTags w ep (dstRepoNameOf env sr) sr tags
        { e with repos := dstRepoNameOf env sr :: e.repos } with ⟨e2, acts2, r2⟩
      refine ⟨acts2, r2, by simp [hmt], ?_⟩
      intro r b
      have := mirrorTags_no_create w ep (dstRepoNameOf env sr) sr tags
        { e with repos := dstRepoNameOf env sr :: e.repos } r b
      rw [hmt] at this
      exact this
  · intro env w sr e p ep hdry hu hpw hcfg hauth hdesc hmem r b
    rw [mirrorSingleRepo_unfold env w sr e p ep hdry hu hpw hcfg hauth hdesc,
      if_pos hmem]
    unfold mirrorFrom
    rcases hsel : selectTags env w sr with m | tags
    · exact List.not_mem_nil _
    · rcases hmt : mirrorTags w ep (dstRepoNameOf env sr) sr tags e with ⟨e2, acts2, r2⟩
      have := mirrorTags_no_create w ep (dstRepoNameOf env sr) sr tags e r b
      rw [hmt] at this
      simpa [hmt] using this
  · intro env w sr e p ep m hdry hu hpw hcfg hauth hdesc hmem hcreate
    rw [mirrorSingleRepo_unfold env w sr e p ep hdry hu hpw hcfg hauth hdesc,
      if_neg hmem]
    simp only [hcreate]
  · intro env w sr e p ep m hdry hu hpw hcfg hauth hdesc
    simp only [mirrorSingleRepo, hdry, hcfg, hauth, describeRepo, hdesc]
    simp [hu, hpw]
  · intro dm m h
    simp [ensureECRRepo, h]
  · intro dm m h
    simp [ensureECRRepo, h]

/-- Witness for the amended C8 at concrete inputs: the absent repository is
created exactly once (scan-on-push on) before the tag actions. -/
theorem C8_amended_repo_creation_witness :
    ∃ tagActs res,
      mirrorSingleRepo env0 w0 "cgr.dev/g/app" ecr0 =
        ((mirrorSingleRepo env0 w0 "cgr.dev/g/app" ecr0).1,
         Action.createRepoCall (dstRepoNameOf env0 "cgr.dev/g/app") true :: tagActs, res) ∧
      ∀ r b, Action.createRepoCall r b ∉ tagActs :=
  C8_amended_repo_creation.1 env0 w0 "cgr.dev/g/app" ecr0
    "pw" "123.dkr.ecr.us-east-2.amazonaws.com"
    (by decide) (by decide) (by decide) rfl (by decide) rfl (by decide) rfl

/-! ### C9 -/

/-- C9: mirroring the same repository twice in succession against the same
(unchanged) source registry performs zero transfer operations on the
second run — the second run succeeds, changes nothing, and every selected
tag's decision is Skip. -/
theorem C9_second_run_all_skip (env : Env) (w : World) (sr : String)
    (e0 e1 : Ecr) (a1 : List Action) (hc : CleanMirror env w)
    (h1 : mirrorSingleRepo env w sr e0 = (e1, a1, Except.ok ())) :
    ∃ tags, selectTags env w sr = Except.ok tags ∧
      mirrorSingleRepo env w sr e1 = (e1, tags.map Action.skip, Except.ok ()) := by
  obtain ⟨e1', acts', tags, htags, heq, hmem, hpost⟩ :=
    mirrorSingleRepo_clean env w hc sr e0
  rw [h1] at heq
  have he : e1 = e1' := congrArg (fun x => x.1) heq
  subst he
  obtain ⟨p, ep, hauth⟩ := hc.auth
  rw [mirrorSingleRepo_unfold env w sr e1 p ep hc.noDry hc.user hc.pw hc.cfg hauth
    (hc.describeOk _), if_pos hmem]
  refine ⟨tags, htags, ?_⟩
  have hskip := mirrorTags_all_skip w ep (dstRepoNameOf env sr) sr hc.parseOk
    hc.manifestOk hc.lookupOk tags e1 hpost
  unfold mirrorFrom
  simp [htags, hskip]

/-- The destination state left behind by the concrete first run of
`mirrorSingleRepo env0 w0`. -/
def ecr1 : Ecr := ⟨["g/app"], [(("g/app", "latest"), "sha256:abc")]⟩

/-- Witness for C9 at concrete inputs: after the first run creates the
repository and transfers the tag, the second run skips it. -/
theorem C9_second_run_all_skip_witness :
    ∃ tags, selectTags env0 w0 "cgr.dev/g/app" = Except.ok tags ∧
      mirrorSingleRepo env0 w0 "cgr.dev/g/app" ecr1 =
        (ecr1, tags.map Action.skip, Except.ok ()) :=
  C9_second_run_all_skip env0 w0 "cgr.dev/g/app" ecr0 ecr1
    [Action.createRepoCall "g/app" true, Action.transfer "latest" false]
    cleanMirror0 (by decide)

end EcrMirror
